import Mathlib

/-!
Shallow embedding of the crawler core of `chriscarl.tools.downloaders.basic`
(functions `url_walk_files_and_links` and `domain_walk_find_files`),
together with proofs of the spec's testable properties.

URLs and Python strings are modelled as `List Char`.  The external
collaborators (`urllib.parse.urljoin`, `urlparse().hostname`,
`urlparse().path`, `os.path.splitext`, the compiled `EMAIL_REGEX`, the
constant `WEB_FILENAME_EXTENSIONS`, the downloader `download` and the
parser `html_to_dom` — none of which live in this repository's crawler
module) are abstracted into a record of capabilities `Collab`, exactly as
the crawler consumes them.
-/

namespace DlBasic

/-- A Python string / URL: its character sequence. -/
abbrev Url : Type := List Char

/-- `href.split('?')[0]` — the URL up to (excluding) the first `'?'`:
the *logical form* used by the crawler for all its comparisons. -/
def logical (u : Url) : Url :=
  u.takeWhile (fun c => c ≠ '?')

/-- Two URLs denote "the same place" when their logical forms agree. -/
def sameLogical (u v : Url) : Prop :=
  logical u = logical v

/-- Outcome of `download(url, '/temp', is_a=is_a, skip_exist=False,
skip_sleep=skip_sleep)`: either it raises `urllib.error.HTTPError`, or it
returns the pair `(downloaded_filepath, url)` where `url` is the final
(post-redirect) URL. -/
inductive DownloadResult : Type where
  | httpError : DownloadResult
  | ok (downloaded_filepath : List Char) (final_url : Url) : DownloadResult
deriving DecidableEq

/-- The external capabilities consumed by the crawler, exactly at the
call shapes the source uses. `hostname` returns `none` when
`urlparse(u).hostname` is `None`; `html_to_dom` returns `none` on
`UnicodeDecodeError`, otherwise the list of `href` attributes of the
document's `a` elements in document order (`none` for an `a` element
whose attribute mapping has no `href` key). -/
structure Collab : Type where
  urljoin : Url → Url → Url
  hostname : Url → Option Url
  path : Url → Url
  splitext_ext : Url → Url
  email_search : Url → Bool
  web_filename_extensions : List Url
  download : Url → List Char → Bool → DownloadResult
  html_to_dom : List Char → Option (List (Option Url))

/-- Does `haystack` start with `needle`? -/
def starts_with : Url → Url → Bool
  | _, [] => true
  | [], _ :: _ => false
  | a :: hay, b :: needle => a = b && starts_with hay needle

/-- Python's substring test `needle in haystack` on strings: `needle`
occurs contiguously somewhere in `haystack`. -/
def str_contains : Url → Url → Bool
  | [], needle => needle.isEmpty
  | a :: hay, needle => starts_with (a :: hay) needle || str_contains hay needle

/-- The literal `'link'`. -/
def link_str : List Char := ['l', 'i', 'n', 'k']

/-- The literal `'unknown'`. -/
def unknown_str : List Char := ['u', 'n', 'k', 'n', 'o', 'w', 'n']

/-- The `for anchor in anchors` loop of `url_walk_files_and_links`:
given the already-computed `hostname`, final `url`,
`logically_the_same_place` and `logically_above`, it returns the pair
`(file_urls, link_urls)` contributed by the anchors, in document order.
Each anchor entry is the `href` attribute of one `a` element (`none`
when absent; the source's `if not orig_href: continue` also skips the
empty string). -/
def walk_anchors (C : Collab) (hostname url logically_the_same_place logically_above : Url)
    (bidirectional : Bool) : List (Option Url) → List Url × List Url
  | [] => ([], [])
  | anchor :: anchors =>
    let rest := walk_anchors C hostname url logically_the_same_place logically_above
      bidirectional anchors
    match anchor with
    | none => rest
    | some orig_href =>
      if orig_href = [] then rest
      else
        let href := C.urljoin url orig_href
        let lg := logical href
        if C.email_search lg then rest
        else
          let ext := C.splitext_ext (C.path href)
          if ext ≠ [] ∧ ext ∉ C.web_filename_extensions then
            (href :: rest.1, rest.2)
          else
            if lg = logically_the_same_place then rest
            else if bidirectional = false ∧ lg = logically_above then rest
            else if str_contains href hostname then (rest.1, href :: rest.2)
            else rest

/-- `url_walk_files_and_links(url, is_a, skip_sleep, bidirectional,
skip_page)`: fetch one page and partition its outgoing references into
`(file_urls, link_urls)`.  Mirrors the source line by line: hostname of
the *original* requested URL (`or ''`), `HTTPError` → two empty lists,
`UnicodeDecodeError` → two empty lists, the page itself first in
`file_urls` unless `skip_page`, the anchor loop, then the unconditional
`link_urls.append(logically_above)` when `bidirectional`. -/
def url_walk_files_and_links (C : Collab) (url : Url) (is_a : List Char)
    (skip_sleep bidirectional skip_page : Bool) : List Url × List Url :=
  let hostname := (C.hostname url).getD []
  match C.download url is_a skip_sleep with
  | .httpError => ([], [])
  | .ok downloaded_filepath final_url =>
    match C.html_to_dom downloaded_filepath with
    | none => ([], [])
    | some anchors =>
      let url := final_url
      let logically_the_same_place := C.urljoin url ['.']
      let logically_above := C.urljoin url ['.', '.']
      let contrib := walk_anchors C hostname url logically_the_same_place logically_above
        bidirectional anchors
      let file_urls := (if skip_page then [] else [url]) ++ contrib.1
      let link_urls := contrib.2 ++ (if bidirectional then [logically_above] else [])
      (file_urls, link_urls)

/-- The `for file_url in file_urls` loop at the bottom of
`domain_walk_find_files`: yield each file URL not already in
`visited_files`, adding it to `visited_files` right after yielding it. -/
def yield_new_files : List Url → List Url → List Url
  | [], _ => []
  | file_url :: rest, visited_files =>
    if file_url ∈ visited_files then yield_new_files rest visited_files
    else file_url :: yield_new_files rest (visited_files ++ [file_url])

/-- The `while queue` loop of `domain_walk_find_files`, indexed by fuel
(the Python loop runs until the queue empties, which need not happen on
an infinite link graph).  Returns the yielded file URLs together with the
trace of URLs actually passed to `url_walk_files_and_links` (the second
component is pure observability: which dequeued URLs were *visited*
rather than skipped). -/
def domain_walk_go (C : Collab) (skip_sleep bidirectional skip_page : Bool) :
    Nat → List Url → List Url → List Url → List Char → List Url × List Url
  | 0, _, _, _, _ => ([], [])
  | _ + 1, [], _, _, _ => ([], [])
  | fuel + 1, url :: queue, visited_links, visited_files, is_a =>
    if url ∈ visited_links then
      domain_walk_go C skip_sleep bidirectional skip_page fuel queue
        visited_links visited_files is_a
    else
      let res := url_walk_files_and_links C url is_a skip_sleep bidirectional skip_page
      let yielded := yield_new_files res.1 visited_files
      let rest := domain_walk_go C skip_sleep bidirectional skip_page fuel (queue ++ res.2)
        (visited_links ++ [url]) (visited_files ++ yielded) unknown_str
      (yielded ++ rest.1, url :: rest.2)

/-- `domain_walk_find_files(url, is_a, skip_sleep, bidirectional,
skip_page)`: the sequence of file URLs yielded by the breadth-first walk
seeded with `[url]`, both visited sets initially empty. -/
def domain_walk_find_files (C : Collab) (url : Url) (is_a : List Char)
    (skip_sleep bidirectional skip_page : Bool) (fuel : Nat) : List Url :=
  (domain_walk_go C skip_sleep bidirectional skip_page fuel [url] [] [] is_a).1

/-- The visit trace of the same walk: the URLs passed to the page
visitor, in visit order. -/
def domain_walk_trace (C : Collab) (url : Url) (is_a : List Char)
    (skip_sleep bidirectional skip_page : Bool) (fuel : Nat) : List Url :=
  (domain_walk_go C skip_sleep bidirectional skip_page fuel [url] [] [] is_a).2

/-! ## Lemmas about the logical form -/

/-- Splitting at the first `'?'` ignores everything from an appended
`'?'` onwards. -/
theorem logical_append_qmark (u r : Url) : logical (u ++ '?' :: r) = logical u := by
  induction u with
  | nil => simp [logical]
  | cons c u ih =>
    simp only [logical] at ih ⊢
    rw [List.cons_append, List.takeWhile_cons, List.takeWhile_cons, ih]

/-- C8: for every URL `u`, `u` and `u + "?x=1"` have the same logical
form: the logical form strips everything from the first `'?'` onward, so
appending a query string never changes it. -/
theorem C8_same_logical_of_appended_query (u : Url) :
    sameLogical u (u ++ ['?', 'x', '=', '1']) := by
  unfold sameLogical
  exact (logical_append_qmark u ['x', '=', '1']).symm

/-! ## Per-anchor classification -/

/-- C9: an `a` element whose `href` attribute is missing (`none`) or
empty contributes nothing to either collection: processing it is the
same as not having it at all. -/
theorem C9_anchor_without_href_skipped (C : Collab) (hostname url sp ab : Url)
    (bidi : Bool) (rest : List (Option Url)) :
    walk_anchors C hostname url sp ab bidi (none :: rest)
        = walk_anchors C hostname url sp ab bidi rest
      ∧ walk_anchors C hostname url sp ab bidi (some [] :: rest)
        = walk_anchors C hostname url sp ab bidi rest := by
  constructor <;> simp [walk_anchors]

/-- C7: an href whose resolved path has a non-empty extension outside
the web-page extension set, and whose logical form is not an email
match, is appended to the file collection unconditionally — the
same-place reference, the one-level-up reference, the hostname and the
`bidirectional` flag are arbitrary here and play no role. -/
theorem C7_nonpage_extension_is_file (C : Collab) (hostname url sp ab : Url) (bidi : Bool)
    (orig_href : Url) (rest : List (Option Url)) (h0 : orig_href ≠ [])
    (hmail : C.email_search (logical (C.urljoin url orig_href)) = false)
    (hext : C.splitext_ext (C.path (C.urljoin url orig_href)) ≠ [])
    (hweb : C.splitext_ext (C.path (C.urljoin url orig_href)) ∉ C.web_filename_extensions) :
    walk_anchors C hostname url sp ab bidi (some orig_href :: rest)
      = (C.urljoin url orig_href :: (walk_anchors C hostname url sp ab bidi rest).1,
         (walk_anchors C hostname url sp ab bidi rest).2) := by
  simp [walk_anchors, h0, hmail, hext, hweb]

/-- Concrete collaborator for the C7 witness: a one-page site at
`http://h/` whose page holds a single `a.pdf` anchor. -/
def Cw7 : Collab where
  urljoin := fun _ rel => "http://h/".data ++ rel
  hostname := fun _ => some ['h']
  path := fun _ => "/a.pdf".data
  splitext_ext := fun _ => ".pdf".data
  email_search := fun _ => false
  web_filename_extensions := [".html".data, ".htm".data]
  download := fun url _ _ => .ok url url
  html_to_dom := fun _ => some []

/-- Witness for C7 at a concrete anchor. -/
theorem C7_witness :
    "a.pdf".data ≠ ([] : Url)
      ∧ Cw7.email_search (logical (Cw7.urljoin "http://h/".data "a.pdf".data)) = false
      ∧ Cw7.splitext_ext (Cw7.path (Cw7.urljoin "http://h/".data "a.pdf".data)) ≠ []
      ∧ Cw7.splitext_ext (Cw7.path (Cw7.urljoin "http://h/".data "a.pdf".data))
          ∉ Cw7.web_filename_extensions
      ∧ walk_anchors Cw7 ['h'] "http://h/".data "s".data "p".data false
          [some "a.pdf".data]
        = (Cw7.urljoin "http://h/".data "a.pdf".data
            :: (walk_anchors Cw7 ['h'] "http://h/".data "s".data "p".data false []).1,
           (walk_anchors Cw7 ['h'] "http://h/".data "s".data "p".data false []).2) :=
  ⟨by decide, by decide, by decide, by decide,
    C7_nonpage_extension_is_file Cw7 ['h'] "http://h/".data "s".data "p".data false
      "a.pdf".data [] (by decide) (by decide) (by decide) (by decide)⟩

/-- The anchor loop over no anchors contributes nothing. -/
theorem walk_anchors_nil (C : Collab) (hostname url sp ab : Url) (bidi : Bool) :
    walk_anchors C hostname url sp ab bidi [] = ([], []) := rfl

/-- A surviving candidate link (nonempty href, not an email match, no
extension or a page-like one, not same-place, not blocked by the
downward-only rule) is appended to the link collection exactly when the
hostname is a substring of the resolved href. -/
theorem walk_anchors_candidate_link (C : Collab) (hostname url sp ab : Url) (bidi : Bool)
    (orig_href : Url) (rest : List (Option Url)) (h0 : orig_href ≠ [])
    (hmail : C.email_search (logical (C.urljoin url orig_href)) = false)
    (hext : C.splitext_ext (C.path (C.urljoin url orig_href)) = []
            ∨ C.splitext_ext (C.path (C.urljoin url orig_href)) ∈ C.web_filename_extensions)
    (hsp : logical (C.urljoin url orig_href) ≠ sp)
    (hab : bidi = true ∨ logical (C.urljoin url orig_href) ≠ ab) :
    walk_anchors C hostname url sp ab bidi (some orig_href :: rest)
      = ((walk_anchors C hostname url sp ab bidi rest).1,
         if str_contains (C.urljoin url orig_href) hostname = true
         then C.urljoin url orig_href :: (walk_anchors C hostname url sp ab bidi rest).2
         else (walk_anchors C hostname url sp ab bidi rest).2) := by
  have hfile : ¬(C.splitext_ext (C.path (C.urljoin url orig_href)) ≠ []
      ∧ C.splitext_ext (C.path (C.urljoin url orig_href)) ∉ C.web_filename_extensions) := by
    rcases hext with h | h
    · intro hc; exact hc.1 h
    · intro hc; exact hc.2 h
  have hdir : ¬(bidi = false ∧ logical (C.urljoin url orig_href) = ab) := by
    rcases hab with h | h
    · intro hc; rw [h] at hc; simp at hc
    · intro hc; exact h hc.2
  by_cases hc : str_contains (C.urljoin url orig_href) hostname = true <;>
    simp [walk_anchors, h0, hmail, hfile, hsp, hdir, hc]

/-- Every URL in the link collection produced by the anchor loop is the
resolution of some anchor's href, its logical form differs from
same-place, it differs from one-level-up when downward-only, and the
hostname is a substring of it. -/
theorem walk_anchors_link_mem (C : Collab) (hostname url sp ab : Url) (bidi : Bool)
    (ans : List (Option Url)) :
    ∀ h ∈ (walk_anchors C hostname url sp ab bidi ans).2,
      (∃ orig, some orig ∈ ans ∧ h = C.urljoin url orig)
        ∧ logical h ≠ sp
        ∧ (bidi = false → logical h ≠ ab)
        ∧ str_contains h hostname = true := by
  induction ans with
  | nil => simp [walk_anchors]
  | cons a ans ih =>
    have step : ∀ h ∈ (walk_anchors C hostname url sp ab bidi ans).2,
        (∃ orig, some orig ∈ a :: ans ∧ h = C.urljoin url orig)
          ∧ logical h ≠ sp ∧ (bidi = false → logical h ≠ ab)
          ∧ str_contains h hostname = true := by
      intro h hh
      obtain ⟨⟨orig, hmem, rfl⟩, h2, h3, h4⟩ := ih h hh
      exact ⟨⟨orig, List.mem_cons_of_mem _ hmem, rfl⟩, h2, h3, h4⟩
    cases a with
    | none =>
      intro h hh
      exact step h (by simpa [walk_anchors] using hh)
    | some orig =>
      by_cases h0 : orig = []
      · intro h hh
        exact step h (by simpa [walk_anchors, h0] using hh)
      · intro h hh
        simp only [walk_anchors, if_neg h0] at hh
        by_cases hm : C.email_search (logical (C.urljoin url orig)) = true
        · exact step h (by simpa [hm] using hh)
        · simp only [hm, if_false, Bool.false_eq_true] at hh
          by_cases hf : C.splitext_ext (C.path (C.urljoin url orig)) ≠ []
              ∧ C.splitext_ext (C.path (C.urljoin url orig)) ∉ C.web_filename_extensions
          · exact step h (by simpa [hf] using hh)
          · simp only [if_neg hf] at hh
            by_cases hsp : logical (C.urljoin url orig) = sp
            · exact step h (by simpa [hsp] using hh)
            · simp only [if_neg hsp] at hh
              by_cases hab : bidi = false ∧ logical (C.urljoin url orig) = ab
              · exact step h (by simpa [hab] using hh)
              · simp only [if_neg hab] at hh
                by_cases hc : str_contains (C.urljoin url orig) hostname = true
                · simp only [hc, if_true] at hh
                  rcases List.mem_cons.mp hh with rfl | hh
                  · refine ⟨⟨orig, List.mem_cons_self _ _, rfl⟩, hsp, ?_, hc⟩
                    intro hb hcontra
                    exact hab ⟨hb, hcontra⟩
                  · exact step h hh
                · exact step h (by simpa [hc] using hh)

/-- C3 (amended): for a candidate link that survives the same-place,
direction and email filters, the resolved href is appended to the link
collection **iff** the hostname of the originally requested URL is a
substring of the resolved href — a plain substring test, not a
parsed-host comparison. -/
theorem C3_link_iff_hostname_substring (C : Collab) (url : Url) (is_a : List Char)
    (ss bidi sp_flag : Bool) (fp final orig_href : Url)
    (hd : C.download url is_a ss = .ok fp final)
    (hdom : C.html_to_dom fp = some [some orig_href])
    (h0 : orig_href ≠ [])
    (hmail : C.email_search (logical (C.urljoin final orig_href)) = false)
    (hext : C.splitext_ext (C.path (C.urljoin final orig_href)) = []
            ∨ C.splitext_ext (C.path (C.urljoin final orig_href)) ∈ C.web_filename_extensions)
    (hsp : logical (C.urljoin final orig_href) ≠ C.urljoin final ['.'])
    (hab : bidi = true ∨ logical (C.urljoin final orig_href) ≠ C.urljoin final ['.', '.']) :
    (url_walk_files_and_links C url is_a ss bidi sp_flag).2
      = (if str_contains (C.urljoin final orig_href) ((C.hostname url).getD []) = true
         then [C.urljoin final orig_href] else [])
        ++ (if bidi then [C.urljoin final ['.', '.']] else []) := by
  have hcand := walk_anchors_candidate_link C ((C.hostname url).getD []) final
    (C.urljoin final ['.']) (C.urljoin final ['.', '.']) bidi orig_href [] h0 hmail hext hsp hab
  by_cases hc : str_contains (C.urljoin final orig_href) ((C.hostname url).getD []) = true <;>
    simp [url_walk_files_and_links, hd, hdom, hcand, hc, walk_anchors_nil]

/-- Concrete collaborator for C3: a site at `example.com` whose page
holds one absolute anchor to the *different* host `evil-example.com`,
which contains `example.com` as a substring. -/
def Cc3 : Collab where
  urljoin := fun _ rel =>
    if rel = ['.'] then "http://example.com/".data
    else if rel = ['.', '.'] then "http://example.com/".data
    else rel
  hostname := fun u =>
    if u = "http://example.com/".data then some "example.com".data
    else if u = "http://evil-example.com/d/".data then some "evil-example.com".data
    else none
  path := fun u => if u = "http://evil-example.com/d/".data then "/d/".data else "/".data
  splitext_ext := fun _ => []
  email_search := fun _ => false
  web_filename_extensions := [".html".data, ".htm".data]
  download := fun url _ _ => .ok url url
  html_to_dom := fun fp =>
    if fp = "http://example.com/".data then some [some "http://evil-example.com/d/".data]
    else some []

/-- C3 counterexample: the href resolves to host `evil-example.com`,
different from the requested URL's host `example.com`, yet it is kept in
the link collection because `example.com` is a substring of the href. -/
theorem C3_counterexample :
    (url_walk_files_and_links Cc3 "http://example.com/".data link_str false false true).2
        = ["http://evil-example.com/d/".data]
      ∧ Cc3.hostname "http://example.com/".data = some "example.com".data
      ∧ Cc3.hostname "http://evil-example.com/d/".data = some "evil-example.com".data
      ∧ "evil-example.com".data ≠ "example.com".data :=
  ⟨by decide, by decide, by decide, by decide⟩

/-- Concrete collaborator for the C3 witness: host `h.org`, one candidate
anchor resolving to a different, unrelated host `other.net`. -/
def Cw3 : Collab where
  urljoin := fun _ rel =>
    if rel = ['.'] then "http://h.org/".data
    else if rel = ['.', '.'] then "http://h.org/".data
    else rel
  hostname := fun u => if u = "http://h.org/".data then some "h.org".data else none
  path := fun _ => "/".data
  splitext_ext := fun _ => []
  email_search := fun _ => false
  web_filename_extensions := [".html".data, ".htm".data]
  download := fun url _ _ => .ok url url
  html_to_dom := fun fp =>
    if fp = "http://h.org/".data then some [some "http://other.net/a/".data]
    else some []

/-- Witness for C3 at a concrete page: the hostname `h.org` is not a
substring of `http://other.net/a/`, so the link collection comes out
empty. -/
theorem C3_witness :
    Cw3.download "http://h.org/".data link_str false
        = DownloadResult.ok "http://h.org/".data "http://h.org/".data
      ∧ Cw3.html_to_dom "http://h.org/".data = some [some "http://other.net/a/".data]
      ∧ "http://other.net/a/".data ≠ ([] : Url)
      ∧ Cw3.email_search (logical (Cw3.urljoin "http://h.org/".data "http://other.net/a/".data))
          = false
      ∧ (Cw3.splitext_ext (Cw3.path (Cw3.urljoin "http://h.org/".data "http://other.net/a/".data))
            = []
          ∨ Cw3.splitext_ext (Cw3.path (Cw3.urljoin "http://h.org/".data
            "http://other.net/a/".data)) ∈ Cw3.web_filename_extensions)
      ∧ logical (Cw3.urljoin "http://h.org/".data "http://other.net/a/".data)
          ≠ Cw3.urljoin "http://h.org/".data ['.']
      ∧ (false = true ∨ logical (Cw3.urljoin "http://h.org/".data "http://other.net/a/".data)
          ≠ Cw3.urljoin "http://h.org/".data ['.', '.'])
      ∧ (url_walk_files_and_links Cw3 "http://h.org/".data link_str false false true).2
        = (if str_contains (Cw3.urljoin "http://h.org/".data "http://other.net/a/".data)
              ((Cw3.hostname "http://h.org/".data).getD []) = true
           then [Cw3.urljoin "http://h.org/".data "http://other.net/a/".data] else [])
          ++ (if false then [Cw3.urljoin "http://h.org/".data ['.', '.']] else []) :=
  ⟨by decide, by decide, by decide, by decide, by decide, by decide, by decide,
    C3_link_iff_hostname_substring Cw3 "http://h.org/".data link_str false false true
      "http://h.org/".data "http://h.org/".data "http://other.net/a/".data
      (by decide) (by decide) (by decide) (by decide) (by decide) (by decide) (by decide)⟩

/-- The empty string is a substring of every string. -/
theorem str_contains_nil_needle : ∀ h : Url, str_contains h [] = true
  | [] => rfl
  | _ :: _ => by simp [str_contains, starts_with]

/-- C10: when no hostname can be parsed from the requested URL, the
crawler falls back to the empty string, which is a substring of every
href, so every candidate link surviving the other filters is appended to
the link collection. -/
theorem C10_empty_hostname_keeps_candidate (C : Collab) (url : Url) (is_a : List Char)
    (ss bidi sp_flag : Bool) (fp final orig_href : Url)
    (hhost : C.hostname url = none)
    (hd : C.download url is_a ss = .ok fp final)
    (hdom : C.html_to_dom fp = some [some orig_href])
    (h0 : orig_href ≠ [])
    (hmail : C.email_search (logical (C.urljoin final orig_href)) = false)
    (hext : C.splitext_ext (C.path (C.urljoin final orig_href)) = []
            ∨ C.splitext_ext (C.path (C.urljoin final orig_href)) ∈ C.web_filename_extensions)
    (hsp : logical (C.urljoin final orig_href) ≠ C.urljoin final ['.'])
    (hab : bidi = true ∨ logical (C.urljoin final orig_href) ≠ C.urljoin final ['.', '.']) :
    C.urljoin final orig_href ∈ (url_walk_files_and_links C url is_a ss bidi sp_flag).2 := by
  have hnil : str_contains (C.urljoin final orig_href) ((C.hostname url).getD []) = true := by
    rw [hhost]
    exact str_contains_nil_needle _
  have hcand := walk_anchors_candidate_link C ((C.hostname url).getD []) final
    (C.urljoin final ['.']) (C.urljoin final ['.', '.']) bidi orig_href [] h0 hmail hext hsp hab
  simp [url_walk_files_and_links, hd, hdom, hcand, hnil, walk_anchors_nil]

/-- Concrete collaborator for the C10 witness: a relative seed URL (no
parseable hostname), one candidate anchor to an arbitrary absolute
host. -/
def Cw10 : Collab where
  urljoin := fun _ rel =>
    if rel = ['.'] then "dir/".data
    else if rel = ['.', '.'] then "".data
    else rel
  hostname := fun _ => none
  path := fun _ => "/x/".data
  splitext_ext := fun _ => []
  email_search := fun _ => false
  web_filename_extensions := [".html".data, ".htm".data]
  download := fun url _ _ => .ok url url
  html_to_dom := fun fp =>
    if fp = "dir/page".data then some [some "http://anywhere.net/x/".data]
    else some []

/-- Witness for C10 at a concrete page. -/
theorem C10_witness :
    Cw10.hostname "dir/page".data = none
      ∧ Cw10.download "dir/page".data link_str false
          = DownloadResult.ok "dir/page".data "dir/page".data
      ∧ Cw10.html_to_dom "dir/page".data = some [some "http://anywhere.net/x/".data]
      ∧ "http://anywhere.net/x/".data ≠ ([] : Url)
      ∧ Cw10.email_search (logical (Cw10.urljoin "dir/page".data "http://anywhere.net/x/".data))
          = false
      ∧ (Cw10.splitext_ext (Cw10.path (Cw10.urljoin "dir/page".data
            "http://anywhere.net/x/".data)) = []
          ∨ Cw10.splitext_ext (Cw10.path (Cw10.urljoin "dir/page".data
            "http://anywhere.net/x/".data)) ∈ Cw10.web_filename_extensions)
      ∧ logical (Cw10.urljoin "dir/page".data "http://anywhere.net/x/".data)
          ≠ Cw10.urljoin "dir/page".data ['.']
      ∧ (false = true ∨ logical (Cw10.urljoin "dir/page".data "http://anywhere.net/x/".data)
          ≠ Cw10.urljoin "dir/page".data ['.', '.'])
      ∧ Cw10.urljoin "dir/page".data "http://anywhere.net/x/".data
          ∈ (url_walk_files_and_links Cw10 "dir/page".data link_str false false true).2 :=
  ⟨by decide, by decide, by decide, by decide, by decide, by decide, by decide, by decide,
    C10_empty_hostname_keeps_candidate Cw10 "dir/page".data link_str false false true
      "dir/page".data "dir/page".data "http://anywhere.net/x/".data
      (by decide) (by decide) (by decide) (by decide) (by decide) (by decide) (by decide)
      (by decide)⟩

/-- C4 (amended): with `bidirectional=true` the one-level-up URL is
unconditionally appended once after the anchor loop; it therefore occurs
exactly once in the link collection *provided* no anchor-derived link
equals it — anchors resolving to the parent make it occur more than
once. -/
theorem C4_parent_appended_once (C : Collab) (url : Url) (is_a : List Char)
    (ss sp_flag : Bool) (fp final : Url) (anchors : List (Option Url))
    (hd : C.download url is_a ss = .ok fp final)
    (hdom : C.html_to_dom fp = some anchors)
    (hcnt : List.count (C.urljoin final ['.', '.'])
        ((walk_anchors C ((C.hostname url).getD []) final (C.urljoin final ['.'])
          (C.urljoin final ['.', '.']) true anchors).2) = 0) :
    C.urljoin final ['.', '.'] ∈ (url_walk_files_and_links C url is_a ss true sp_flag).2
      ∧ List.count (C.urljoin final ['.', '.'])
          ((url_walk_files_and_links C url is_a ss true sp_flag).2) = 1 := by
  have hlinks : (url_walk_files_and_links C url is_a ss true sp_flag).2
      = (walk_anchors C ((C.hostname url).getD []) final (C.urljoin final ['.'])
          (C.urljoin final ['.', '.']) true anchors).2 ++ [C.urljoin final ['.', '.']] := by
    simp [url_walk_files_and_links, hd, hdom]
  rw [hlinks]
  constructor
  · exact List.mem_append_right _ (List.mem_singleton_self _)
  · rw [List.count_append, hcnt, List.count_singleton_self]

/-- Concrete collaborator for C4: a page at `http://h/a/b/` whose only
anchor is `..`, walked with `bidirectional=true`. -/
def Cc4 : Collab where
  urljoin := fun _ rel =>
    if rel = ['.'] then "http://h/a/b/".data
    else if rel = ['.', '.'] then "http://h/a/".data
    else "http://h/a/b/".data ++ rel
  hostname := fun _ => some ['h']
  path := fun u => if u = "http://h/a/".data then "/a/".data else "/a/b/".data
  splitext_ext := fun _ => []
  email_search := fun _ => false
  web_filename_extensions := [".html".data, ".htm".data]
  download := fun url _ _ => .ok url url
  html_to_dom := fun fp =>
    if fp = "http://h/a/b/".data then some [some ['.', '.']] else some []

/-- C4 counterexample: with `bidirectional=true` and a page containing
an anchor `..`, the one-level-up URL `http://h/a/` appears **twice** in
the link collection (once from the anchor, once from the unconditional
append), refuting "exactly once regardless of anchor content". -/
theorem C4_counterexample :
    (url_walk_files_and_links Cc4 "http://h/a/b/".data link_str false true true).2
        = ["http://h/a/".data, "http://h/a/".data]
      ∧ List.count "http://h/a/".data
          ((url_walk_files_and_links Cc4 "http://h/a/b/".data link_str false true true).2) = 2 :=
  ⟨by decide, by decide⟩

/-- Concrete collaborator for the C4 witness: a page at `http://h/a/b/`
with no anchors at all. -/
def Cw4 : Collab where
  urljoin := fun _ rel =>
    if rel = ['.'] then "http://h/a/b/".data
    else if rel = ['.', '.'] then "http://h/a/".data
    else "http://h/a/b/".data ++ rel
  hostname := fun _ => some ['h']
  path := fun _ => "/a/b/".data
  splitext_ext := fun _ => []
  email_search := fun _ => false
  web_filename_extensions := [".html".data, ".htm".data]
  download := fun url _ _ => .ok url url
  html_to_dom := fun _ => some []

/-- Witness for C4 (amended) at a concrete page. -/
theorem C4_witness :
    Cw4.download "http://h/a/b/".data link_str false
        = DownloadResult.ok "http://h/a/b/".data "http://h/a/b/".data
      ∧ Cw4.html_to_dom "http://h/a/b/".data = some []
      ∧ List.count (Cw4.urljoin "http://h/a/b/".data ['.', '.'])
          ((walk_anchors Cw4 ((Cw4.hostname "http://h/a/b/".data).getD [])
            "http://h/a/b/".data (Cw4.urljoin "http://h/a/b/".data ['.'])
            (Cw4.urljoin "http://h/a/b/".data ['.', '.']) true []).2) = 0
      ∧ Cw4.urljoin "http://h/a/b/".data ['.', '.']
          ∈ (url_walk_files_and_links Cw4 "http://h/a/b/".data link_str false true true).2
      ∧ List.count (Cw4.urljoin "http://h/a/b/".data ['.', '.'])
          ((url_walk_files_and_links Cw4 "http://h/a/b/".data link_str false true true).2) = 1 := by
  have h := C4_parent_appended_once Cw4 "http://h/a/b/".data link_str false true
    "http://h/a/b/".data "http://h/a/b/".data [] (by decide) (by decide) (by decide)
  exact ⟨by decide, by decide, by decide, h.1, h.2⟩

/-- With `bidirectional=false`, an anchor whose resolved href has the
one-level-up URL as logical form (and no file extension or a page-like
one) contributes nothing to either collection. -/
theorem walk_anchors_parent_discarded (C : Collab) (hostname url sp ab : Url)
    (orig_href : Url) (rest : List (Option Url)) (h0 : orig_href ≠ [])
    (hext : C.splitext_ext (C.path (C.urljoin url orig_href)) = []
            ∨ C.splitext_ext (C.path (C.urljoin url orig_href)) ∈ C.web_filename_extensions)
    (hab : logical (C.urljoin url orig_href) = ab) :
    walk_anchors C hostname url sp ab false (some orig_href :: rest)
      = walk_anchors C hostname url sp ab false rest := by
  have hfile : ¬(C.splitext_ext (C.path (C.urljoin url orig_href)) ≠ []
      ∧ C.splitext_ext (C.path (C.urljoin url orig_href)) ∉ C.web_filename_extensions) := by
    rcases hext with h | h
    · intro hc; exact hc.1 h
    · intro hc; exact hc.2 h
  by_cases hm : C.email_search (logical (C.urljoin url orig_href)) = true
  · simp [walk_anchors, h0, hm]
  · by_cases hsp : logical (C.urljoin url orig_href) = sp
    · simp [walk_anchors, h0, hm, hfile, hsp]
    · simp [walk_anchors, h0, hm, hfile, hsp, hab]

/-- C5: with `bidirectional=false` the one-level-up URL never appears in
the link collection (its logical form is itself, and every collected
link's logical form differs from one-level-up), and an anchor resolving
to the parent directory is discarded — it contributes to neither
collection. -/
theorem C5_downward_only_excludes_parent (C : Collab) (url : Url) (is_a : List Char)
    (ss sp_flag : Bool) (fp final orig_href : Url) (anchors rest : List (Option Url))
    (hd : C.download url is_a ss = .ok fp final)
    (hdom : C.html_to_dom fp = some anchors)
    (hq : logical (C.urljoin final ['.', '.']) = C.urljoin final ['.', '.'])
    (h0 : orig_href ≠ [])
    (hext : C.splitext_ext (C.path (C.urljoin final orig_href)) = []
            ∨ C.splitext_ext (C.path (C.urljoin final orig_href)) ∈ C.web_filename_extensions)
    (hab : logical (C.urljoin final orig_href) = C.urljoin final ['.', '.']) :
    C.urljoin final ['.', '.'] ∉ (url_walk_files_and_links C url is_a ss false sp_flag).2
      ∧ walk_anchors C ((C.hostname url).getD []) final (C.urljoin final ['.'])
          (C.urljoin final ['.', '.']) false (some orig_href :: rest)
        = walk_anchors C ((C.hostname url).getD []) final (C.urljoin final ['.'])
          (C.urljoin final ['.', '.']) false rest := by
  constructor
  · have hlinks : (url_walk_files_and_links C url is_a ss false sp_flag).2
        = (walk_anchors C ((C.hostname url).getD []) final (C.urljoin final ['.'])
            (C.urljoin final ['.', '.']) false anchors).2 := by
      simp [url_walk_files_and_links, hd, hdom]
    rw [hlinks]
    intro hmem
    obtain ⟨-, -, h3, -⟩ := walk_anchors_link_mem C ((C.hostname url).getD []) final
      (C.urljoin final ['.']) (C.urljoin final ['.', '.']) false anchors _ hmem
    exact h3 rfl hq
  · exact walk_anchors_parent_discarded C ((C.hostname url).getD []) final
      (C.urljoin final ['.']) (C.urljoin final ['.', '.']) orig_href rest h0 hext hab

/-- Concrete collaborator for the C5 witness: a page at `http://h/a/b/`
whose only anchor is `..`, walked with `bidirectional=false`. -/
def Cw5 : Collab where
  urljoin := fun _ rel =>
    if rel = ['.'] then "http://h/a/b/".data
    else if rel = ['.', '.'] then "http://h/a/".data
    else "http://h/a/b/".data ++ rel
  hostname := fun _ => some ['h']
  path := fun u => if u = "http://h/a/".data then "/a/".data else "/a/b/".data
  splitext_ext := fun _ => []
  email_search := fun _ => false
  web_filename_extensions := [".html".data, ".htm".data]
  download := fun url _ _ => .ok url url
  html_to_dom := fun fp =>
    if fp = "http://h/a/b/".data then some [some ['.', '.']] else some []

/-- Witness for C5 at a concrete page. -/
theorem C5_witness :
    Cw5.download "http://h/a/b/".data link_str false
        = DownloadResult.ok "http://h/a/b/".data "http://h/a/b/".data
      ∧ Cw5.html_to_dom "http://h/a/b/".data = some [some ['.', '.']]
      ∧ logical (Cw5.urljoin "http://h/a/b/".data ['.', '.'])
          = Cw5.urljoin "http://h/a/b/".data ['.', '.']
      ∧ (['.', '.'] : Url) ≠ []
      ∧ (Cw5.splitext_ext (Cw5.path (Cw5.urljoin "http://h/a/b/".data ['.', '.'])) = []
          ∨ Cw5.splitext_ext (Cw5.path (Cw5.urljoin "http://h/a/b/".data ['.', '.']))
              ∈ Cw5.web_filename_extensions)
      ∧ logical (Cw5.urljoin "http://h/a/b/".data ['.', '.'])
          = Cw5.urljoin "http://h/a/b/".data ['.', '.']
      ∧ (Cw5.urljoin "http://h/a/b/".data ['.', '.']
          ∉ (url_walk_files_and_links Cw5 "http://h/a/b/".data link_str false false true).2
        ∧ walk_anchors Cw5 ((Cw5.hostname "http://h/a/b/".data).getD [])
            "http://h/a/b/".data (Cw5.urljoin "http://h/a/b/".data ['.'])
            (Cw5.urljoin "http://h/a/b/".data ['.', '.']) false [some ['.', '.']]
          = walk_anchors Cw5 ((Cw5.hostname "http://h/a/b/".data).getD [])
            "http://h/a/b/".data (Cw5.urljoin "http://h/a/b/".data ['.'])
            (Cw5.urljoin "http://h/a/b/".data ['.', '.']) false []) :=
  ⟨by decide, by decide, by decide, by decide, by decide, by decide,
    C5_downward_only_excludes_parent Cw5 "http://h/a/b/".data link_str false true
      "http://h/a/b/".data "http://h/a/b/".data ['.', '.'] [some ['.', '.']] []
      (by decide) (by decide) (by decide) (by decide) (by decide) (by decide)⟩

/-! ## The domain walk -/

/-- The walk loop with an empty queue terminates at once with nothing
yielded and nothing visited. -/
theorem domain_walk_go_nil_queue (C : Collab) (ss bidi sp : Bool) (fuel : Nat)
    (vl vf : List Url) (ia : List Char) :
    domain_walk_go C ss bidi sp fuel [] vl vf ia = ([], []) := by
  cases fuel <;> rfl

/-- C6: when the fetch collaborator rejects a URL with an HTTP error,
the page visitor returns two empty collections without raising; hence a
walk whose seed fetch fails this way yields the empty sequence. -/
theorem C6_fetch_failure_yields_nothing (C : Collab) (url : Url) (is_a : List Char)
    (ss bidi sp : Bool) (fuel : Nat)
    (hfail : C.download url is_a ss = .httpError) :
    url_walk_files_and_links C url is_a ss bidi sp = ([], [])
      ∧ domain_walk_find_files C url is_a ss bidi sp fuel = [] := by
  have h1 : url_walk_files_and_links C url is_a ss bidi sp = ([], []) := by
    simp [url_walk_files_and_links, hfail]
  refine ⟨h1, ?_⟩
  unfold domain_walk_find_files
  cases fuel with
  | zero => rfl
  | succ n =>
    simp [domain_walk_go, h1, yield_new_files, domain_walk_go_nil_queue]

/-- Concrete collaborator for the C6 witness: the downloader rejects
every request. -/
def Cw6 : Collab where
  urljoin := fun _ rel => rel
  hostname := fun _ => none
  path := fun _ => []
  splitext_ext := fun _ => []
  email_search := fun _ => false
  web_filename_extensions := []
  download := fun _ _ _ => .httpError
  html_to_dom := fun _ => none

/-- Witness for C6 at a concrete seed. -/
theorem C6_witness :
    Cw6.download "http://x/".data link_str false = DownloadResult.httpError
      ∧ (url_walk_files_and_links Cw6 "http://x/".data link_str false false false = ([], [])
        ∧ domain_walk_find_files Cw6 "http://x/".data link_str false false false 3 = []) :=
  ⟨by decide,
    C6_fetch_failure_yields_nothing Cw6 "http://x/".data link_str false false false 3
      (by decide)⟩

/-- Every URL yielded by the file loop was not in `visited_files` when
the loop started. -/
theorem yield_new_files_not_mem : ∀ (l vis : List Url), ∀ u ∈ yield_new_files l vis, u ∉ vis
  | [], _ => by simp [yield_new_files]
  | f :: rest, vis => by
    by_cases hf : f ∈ vis
    · simpa [yield_new_files, hf] using yield_new_files_not_mem rest vis
    · intro u hu
      simp only [yield_new_files, if_neg hf] at hu
      rcases List.mem_cons.mp hu with rfl | hu
      · exact hf
      · intro hv
        exact yield_new_files_not_mem rest (vis ++ [f]) u hu (List.mem_append_left _ hv)

/-- The file loop yields each URL at most once: marking right after
yielding deduplicates even within one page's file list. -/
theorem yield_new_files_nodup : ∀ (l vis : List Url), (yield_new_files l vis).Nodup
  | [], _ => by simp [yield_new_files]
  | f :: rest, vis => by
    by_cases hf : f ∈ vis
    · simpa [yield_new_files, hf] using yield_new_files_nodup rest vis
    · simp only [yield_new_files, if_neg hf]
      refine List.nodup_cons.mpr ⟨?_, yield_new_files_nodup rest (vis ++ [f])⟩
      intro hmem
      exact yield_new_files_not_mem rest (vis ++ [f]) f hmem
        (List.mem_append_right _ (List.mem_singleton_self f))

/-- No URL yielded by the walk was already in the `visited_files` set it
started from. -/
theorem domain_walk_go_files_not_mem (C : Collab) (ss bidi sp : Bool) :
    ∀ (fuel : Nat) (queue vl vf : List Url) (ia : List Char),
      ∀ u ∈ (domain_walk_go C ss bidi sp fuel queue vl vf ia).1, u ∉ vf
  | 0, _, _, _, _ => by simp [domain_walk_go]
  | _ + 1, [], _, _, _ => by simp [domain_walk_go]
  | fuel + 1, url :: queue, vl, vf, ia => by
    by_cases hv : url ∈ vl
    · simpa [domain_walk_go, hv] using
        domain_walk_go_files_not_mem C ss bidi sp fuel queue vl vf ia
    · intro u hu
      simp only [domain_walk_go, if_neg hv] at hu
      rcases List.mem_append.mp hu with h | h
      · exact yield_new_files_not_mem _ _ u h
      · intro hvf
        exact domain_walk_go_files_not_mem C ss bidi sp fuel _ _ _ _ u h
          (List.mem_append_left _ hvf)

/-- The full sequence of yielded file URLs of a walk has no duplicate. -/
theorem domain_walk_go_files_nodup (C : Collab) (ss bidi sp : Bool) :
    ∀ (fuel : Nat) (queue vl vf : List Url) (ia : List Char),
      ((domain_walk_go C ss bidi sp fuel queue vl vf ia).1).Nodup
  | 0, _, _, _, _ => by simp [domain_walk_go]
  | _ + 1, [], _, _, _ => by simp [domain_walk_go]
  | fuel + 1, url :: queue, vl, vf, ia => by
    by_cases hv : url ∈ vl
    · simpa [domain_walk_go, hv] using
        domain_walk_go_files_nodup C ss bidi sp fuel queue vl vf ia
    · simp only [domain_walk_go, if_neg hv]
      rw [List.nodup_append]
      refine ⟨yield_new_files_nodup _ _, domain_walk_go_files_nodup C ss bidi sp fuel _ _ _ _, ?_⟩
      intro a ha hb
      exact domain_walk_go_files_not_mem C ss bidi sp fuel _ _ _ _ a hb
        (List.mem_append_right _ ha)

/-- C1 (amended): within one walk invocation no file URL is ever
yielded twice, uniqueness being judged by the **exact URL string** (the
`visited_files` membership test), not by logical form. -/
theorem C1_no_file_yielded_twice (C : Collab) (url : Url) (is_a : List Char)
    (ss bidi sp : Bool) (fuel : Nat) :
    (domain_walk_find_files C url is_a ss bidi sp fuel).Nodup :=
  domain_walk_go_files_nodup C ss bidi sp fuel [url] [] [] is_a

/-- Concrete collaborator for C1: the seed page at `http://h/` links the
same document `a.pdf` twice under two different query strings. -/
def Cc1 : Collab where
  urljoin := fun _ rel =>
    if rel = ['.'] then "http://h/".data
    else if rel = ['.', '.'] then "http://h/".data
    else "http://h/".data ++ rel
  hostname := fun _ => some ['h']
  path := fun _ => "/a.pdf".data
  splitext_ext := fun p => if p = "/a.pdf".data then ".pdf".data else []
  email_search := fun _ => false
  web_filename_extensions := [".html".data, ".htm".data]
  download := fun url _ _ => .ok url url
  html_to_dom := fun fp =>
    if fp = "http://h/".data then
      some [some "a.pdf?x=1".data, some "a.pdf?x=2".data]
    else some []

/-- C1 counterexample: one walk yields two file URLs with the **same
logical form** (they differ only in their query strings), refuting
uniqueness by logical form — the code deduplicates by exact URL. -/
theorem C1_counterexample :
    domain_walk_find_files Cc1 "http://h/".data link_str false false true 4
        = ["http://h/a.pdf?x=1".data, "http://h/a.pdf?x=2".data]
      ∧ logical "http://h/a.pdf?x=1".data = logical "http://h/a.pdf?x=2".data
      ∧ "http://h/a.pdf?x=1".data ≠ "http://h/a.pdf?x=2".data :=
  ⟨by decide, by decide, by decide⟩

/-- The visit trace never repeats a URL and never contains a URL that
was already in the `visited_links` set the walk started from. -/
theorem domain_walk_go_trace_spec (C : Collab) (ss bidi sp : Bool) :
    ∀ (fuel : Nat) (queue vl vf : List Url) (ia : List Char),
      ((domain_walk_go C ss bidi sp fuel queue vl vf ia).2).Nodup
        ∧ ∀ u ∈ (domain_walk_go C ss bidi sp fuel queue vl vf ia).2, u ∉ vl
  | 0, _, _, _, _ => by simp [domain_walk_go]
  | _ + 1, [], _, _, _ => by simp [domain_walk_go]
  | fuel + 1, url :: queue, vl, vf, ia => by
    by_cases hv : url ∈ vl
    · simpa [domain_walk_go, hv] using
        domain_walk_go_trace_spec C ss bidi sp fuel queue vl vf ia
    · have ih := domain_walk_go_trace_spec C ss bidi sp fuel
        (queue ++ (url_walk_files_and_links C url ia ss bidi sp).2) (vl ++ [url])
        (vf ++ yield_new_files (url_walk_files_and_links C url ia ss bidi sp).1 vf) unknown_str
      simp only [domain_walk_go, if_neg hv]
      constructor
      · refine List.nodup_cons.mpr ⟨?_, ih.1⟩
        intro hmem
        exact ih.2 url hmem (List.mem_append_right _ (List.mem_singleton_self url))
      · intro u hu
        rcases List.mem_cons.mp hu with rfl | hu
        · exact hv
        · intro hvl
          exact ih.2 u hu (List.mem_append_left _ hvl)

/-- C2 (amended): a dequeued URL already present **as exact string** in
the Links-visited set is skipped and never passed to the page visitor;
consequently no URL is visited twice in one walk (the visit trace has no
duplicate), and no URL of the starting visited set is ever visited.
Membership is judged by exact URL string, not by logical form. -/
theorem C2_no_url_visited_twice (C : Collab) (ss bidi sp : Bool) (fuel : Nat)
    (queue visited_links visited_files : List Url) (ia : List Char) :
    ((domain_walk_go C ss bidi sp fuel queue visited_links visited_files ia).2).Nodup
      ∧ ∀ u ∈ (domain_walk_go C ss bidi sp fuel queue visited_links visited_files ia).2,
          u ∉ visited_links :=
  domain_walk_go_trace_spec C ss bidi sp fuel queue visited_links visited_files ia

/-- Concrete collaborator for C2: the seed page at `http://h/p` links
`?x=1`, which resolves to `http://h/p?x=1` — same logical form as the
seed itself. -/
def Cc2 : Collab where
  urljoin := fun base rel =>
    if rel = ['.'] then "http://h/".data
    else if rel = ['.', '.'] then "http://h/".data
    else base ++ rel
  hostname := fun _ => some ['h']
  path := fun _ => "/p".data
  splitext_ext := fun _ => []
  email_search := fun _ => false
  web_filename_extensions := [".html".data, ".htm".data]
  download := fun url _ _ => .ok url url
  html_to_dom := fun fp =>
    if fp = "http://h/p".data then some [some "?x=1".data] else some []

/-- C2 counterexample: after visiting the seed `http://h/p` (so the
Links-visited set holds its logical form), the walk dequeues
`http://h/p?x=1` — whose logical form **is** in the visited set — and
visits it anyway, because membership is tested on the exact string. -/
theorem C2_counterexample :
    domain_walk_trace Cc2 "http://h/p".data link_str false false true 4
        = ["http://h/p".data, "http://h/p?x=1".data]
      ∧ logical "http://h/p?x=1".data = "http://h/p".data
      ∧ logical "http://h/p".data = "http://h/p".data
      ∧ "http://h/p?x=1".data ≠ "http://h/p".data :=
  ⟨by decide, by decide, by decide, by decide⟩

end DlBasic
